import Mathlib

/-!
Verification development for the target-netsuite journal-entry loader
(src/target_netsuite/__init__.py).  Python constructs are shallowly
embedded: pandas rows become a Lean structure with Option-valued fields
(missing values and all recognized null tokens are mapped to None by
read_input_data, so NaN and absence collapse to Option.none), float
amounts and difflib similarity scores are modelled as exact rationals
built with mkRat, reference-data dicts become structures, and raised
Python exceptions become an explicit error type threaded through Except.
-/

namespace TargetNetsuite

/-- Python exception values raised by the translated code paths. -/
inductive Err where
  | valueError (msg : String)
  | typeError (msg : String)
  | exception (msg : String)
  | keyError (key : String)
  | indexError (msg : String)
  | attributeError (msg : String)
  deriving DecidableEq, Repr

/-- Python truthiness of an optional string cell: None and the empty
string are falsy.  (Numeric cells are modelled by their string rendering;
read_input_data turns empty cells into None.) -/
def optTruthy (o : Option String) : Bool :=
  match o with
  | some s => s ≠ ""
  | none => false

/-- One alias value contributed to a candidate-name list: `if c.get(k):
names.append(c[k])` keeps only truthy values. -/
def optNameList (o : Option String) : List String :=
  match o with
  | some s => if s = "" then [] else [s]
  | none => []

/-- Python str() of an optional value, as used inside f-strings: None
prints as the word None. -/
def pyOptStr (o : Option String) : String :=
  match o with
  | some s => s
  | none => "None"

/-- Python str.isdigit(): nonempty and all characters are digits. -/
def pyIsDigit (s : String) : Bool :=
  s ≠ "" && s.data.all Char.isDigit

/-- Python str.lower(), character by character. -/
def strToLower (s : String) : String :=
  String.mk (s.data.map Char.toLower)

/-- Python code-point comparison of strings, written out on the character
lists so that it evaluates by kernel reduction. -/
def charListLt : List Char → List Char → Bool
  | [], [] => false
  | [], _ :: _ => true
  | _ :: _, [] => false
  | a :: as, b :: bs =>
    if a.toNat < b.toNat then true
    else if b.toNat < a.toNat then false
    else charListLt as bs

/-! ## difflib.SequenceMatcher

The similarity ratio of Python difflib, modelled exactly on character
lists: find the longest matching block (smallest start positions among
the longest), recurse on both sides, and divide twice the total matched
length by the total length.  The junk/autojunk heuristics (which only
engage on strings of length at least 200) are not modelled, and the
quick_ratio/real_quick_ratio prefilters of get_close_matches are sound
upper bounds of ratio, so the kept set is unchanged by dropping them. -/

/-- Length of the longest common prefix of two character lists. -/
def commonPrefixLen : List Char → List Char → Nat
  | a :: as, b :: bs => if a = b then commonPrefixLen as bs + 1 else 0
  | _, _ => 0

/-- Size of the matching block of a and b starting at positions i and j. -/
def blockSizeAt (a b : List Char) (i j : Nat) : Nat :=
  commonPrefixLen (a.drop i) (b.drop j)

/-- Largest block size over all start positions j in b, for a fixed i. -/
def rowMax (a b : List Char) (i : Nat) : Nat :=
  ((List.range (b.length + 1)).map (blockSizeAt a b i)).foldr max 0

/-- Largest matching block size over all start positions. -/
def bestSize (a b : List Char) : Nat :=
  ((List.range (a.length + 1)).map (rowMax a b)).foldr max 0

/-- difflib find_longest_match (no junk): the longest matching block,
with the smallest start in a and then the smallest start in b among the
longest; (0, 0, 0) when there is no common character. -/
def findLongestMatch (a b : List Char) : Nat × Nat × Nat :=
  let k := bestSize a b
  match (List.range (a.length + 1)).find? (fun i =>
      (List.range (b.length + 1)).any (fun j => blockSizeAt a b i j == k)) with
  | some i =>
    match (List.range (b.length + 1)).find? (fun j => blockSizeAt a b i j == k) with
    | some j => (i, j, k)
    | none => (0, 0, 0)
  | none => (0, 0, 0)

/-- Total size of all matching blocks (difflib get_matching_blocks),
with explicit fuel; the fuel a.length + b.length of matchesTotal is
enough because each recursive call strictly shrinks the total length. -/
def matchesTotalFuel : Nat → List Char → List Char → Nat
  | 0, _, _ => 0
  | fuel + 1, a, b =>
    match findLongestMatch a b with
    | (i, j, k) =>
      if k = 0 then 0
      else
        matchesTotalFuel fuel (a.take i) (b.take j) + k +
          matchesTotalFuel fuel (a.drop (i + k)) (b.drop (j + k))

/-- Total matched length between two character lists. -/
def matchesTotal (a b : List Char) : Nat :=
  matchesTotalFuel (a.length + b.length) a b

/-- difflib ratio: 2*M/T, or 1.0 when both sequences are empty. -/
def seqRatio (a b : List Char) : ℚ :=
  let total := a.length + b.length
  if total = 0 then 1 else mkRat (2 * matchesTotal a b) total

lemma commonPrefixLen_le_left : ∀ xs ys : List Char, commonPrefixLen xs ys ≤ xs.length := by
  intro xs
  induction xs with
  | nil => intro ys; cases ys <;> simp [commonPrefixLen]
  | cons x xs ih =>
    intro ys
    cases ys with
    | nil => simp [commonPrefixLen]
    | cons y ys =>
      simp only [commonPrefixLen, List.length_cons]
      split
      · exact Nat.succ_le_succ (ih ys)
      · exact Nat.zero_le _

lemma commonPrefixLen_le_right : ∀ xs ys : List Char, commonPrefixLen xs ys ≤ ys.length := by
  intro xs
  induction xs with
  | nil => intro ys; cases ys <;> simp [commonPrefixLen]
  | cons x xs ih =>
    intro ys
    cases ys with
    | nil => simp [commonPrefixLen]
    | cons y ys =>
      simp only [commonPrefixLen, List.length_cons]
      split
      · exact Nat.succ_le_succ (ih ys)
      · exact Nat.zero_le _

lemma foldr_max_zero_or_mem : ∀ l : List Nat, l.foldr max 0 = 0 ∨ l.foldr max 0 ∈ l := by
  intro l
  induction l with
  | nil => left; rfl
  | cons x xs ih =>
    simp only [List.foldr]
    rcases max_choice x (xs.foldr max 0) with h | h
    · right; rw [h]; exact List.mem_cons_self x xs
    · rw [h]
      rcases ih with h0 | hm
      · left; exact h0
      · right; exact List.mem_cons_of_mem x hm

/-- When the best block size is positive, the chosen positions really
carry a block of that size, which therefore fits inside both lists. -/
lemma findLongestMatch_bounds (a b : List Char) :
    (findLongestMatch a b).2.2 ≠ 0 →
    (findLongestMatch a b).1 + (findLongestMatch a b).2.2 ≤ a.length ∧
      (findLongestMatch a b).2.1 + (findLongestMatch a b).2.2 ≤ b.length := by
  intro hk
  unfold findLongestMatch at *
  set k := bestSize a b with hkdef
  rcases hfind : (List.range (a.length + 1)).find? (fun i =>
      (List.range (b.length + 1)).any (fun j => blockSizeAt a b i j == k)) with _ | i
  · simp only [hfind] at hk
    exact absurd rfl hk
  · have hi_mem : i ∈ List.range (a.length + 1) := List.mem_of_find?_eq_some hfind
    have hi_any := List.find?_some hfind
    rw [List.any_eq_true] at hi_any
    obtain ⟨j0, hj0_mem, hj0⟩ := hi_any
    rcases hfind2 : (List.range (b.length + 1)).find? (fun j => blockSizeAt a b i j == k) with _ | j
    · rw [List.find?_eq_none] at hfind2
      exact absurd hj0 (hfind2 j0 hj0_mem)
    · simp only [hfind, hfind2] at hk ⊢
      have hj_mem : j ∈ List.range (b.length + 1) := List.mem_of_find?_eq_some hfind2
      have hj : blockSizeAt a b i j = k := by
        have := List.find?_some hfind2
        exact beq_iff_eq.mp this
      have hi_lt : i < a.length + 1 := List.mem_range.mp hi_mem
      have hj_lt : j < b.length + 1 := List.mem_range.mp hj_mem
      constructor
      · have h1 : blockSizeAt a b i j ≤ (a.drop i).length := commonPrefixLen_le_left _ _
        rw [hj, List.length_drop] at h1
        omega
      · have h1 : blockSizeAt a b i j ≤ (b.drop j).length := commonPrefixLen_le_right _ _
        rw [hj, List.length_drop] at h1
        omega

lemma matchesTotalFuel_le_left : ∀ fuel (a b : List Char), matchesTotalFuel fuel a b ≤ a.length := by
  intro fuel
  induction fuel with
  | zero => intro a b; simp [matchesTotalFuel]
  | succ n ih =>
    intro a b
    simp only [matchesTotalFuel]
    rcases hm : findLongestMatch a b with ⟨i, j, k⟩
    simp only
    split
    · exact Nat.zero_le _
    · rename_i hk
      have hb := findLongestMatch_bounds a b
      rw [hm] at hb
      have hbounds := hb hk
      have h1 := ih (a.take i) (b.take j)
      have h2 := ih (a.drop (i + k)) (b.drop (j + k))
      rw [List.length_take] at h1
      rw [List.length_drop] at h2
      have hik : i + k ≤ a.length := hbounds.1
      omega

lemma matchesTotalFuel_le_right : ∀ fuel (a b : List Char), matchesTotalFuel fuel a b ≤ b.length := by
  intro fuel
  induction fuel with
  | zero => intro a b; simp [matchesTotalFuel]
  | succ n ih =>
    intro a b
    simp only [matchesTotalFuel]
    rcases hm : findLongestMatch a b with ⟨i, j, k⟩
    simp only
    split
    · exact Nat.zero_le _
    · rename_i hk
      have hb := findLongestMatch_bounds a b
      rw [hm] at hb
      have hbounds := hb hk
      have h1 := ih (a.take i) (b.take j)
      have h2 := ih (a.drop (i + k)) (b.drop (j + k))
      rw [List.length_take] at h1
      rw [List.length_drop] at h2
      have hjk : j + k ≤ b.length := hbounds.2
      omega

lemma seqRatio_nonneg (a b : List Char) : 0 ≤ seqRatio a b := by
  unfold seqRatio
  dsimp only
  split
  · norm_num
  · rw [Rat.mkRat_eq_div]
    positivity

lemma seqRatio_le_one (a b : List Char) : seqRatio a b ≤ 1 := by
  unfold seqRatio
  dsimp only
  split
  · norm_num
  · rename_i htot
    rw [Rat.mkRat_eq_div]
    have hM1 : matchesTotal a b ≤ a.length := matchesTotalFuel_le_left _ a b
    have hM2 : matchesTotal a b ≤ b.length := matchesTotalFuel_le_right _ a b
    have hpos : (0 : ℚ) < ((a.length + b.length : Nat) : ℚ) := by
      have : 0 < a.length + b.length := Nat.pos_of_ne_zero htot
      exact_mod_cast this
    rw [div_le_one hpos]
    have : 2 * matchesTotal a b ≤ a.length + b.length := by omega
    exact_mod_cast this

/-! ## get_close_matches

Translation of the module-level get_close_matches of the target: filter
the possibilities by ratio at least cutoff (the quick-ratio prefilters
are upper bounds of ratio, so they do not change the kept set), take the
n largest (score, candidate) pairs under the descending lexicographic
order that heapq.nlargest uses on tuples, and reverse them into a dict
candidate -> score, later insertions overwriting earlier values in
place, exactly as a CPython dict comprehension does. -/

/-- Descending comparison on (score, candidate) pairs: the order used by
heapq.nlargest on Python tuples (score first, then the string by code
points). -/
def pairGe (p q : ℚ × String) : Bool :=
  if q.1 < p.1 then true
  else if p.1 = q.1 then !(charListLt p.2.data q.2.data)
  else false

/-- Insert a pair into a descending-sorted list. -/
def insertPairDesc (p : ℚ × String) : List (ℚ × String) → List (ℚ × String)
  | [] => [p]
  | q :: qs => if pairGe p q then p :: q :: qs else q :: insertPairDesc p qs

/-- Sort pairs descending; with a total antisymmetric order this agrees
with Python sorted(..., reverse=True). -/
def sortPairsDesc : List (ℚ × String) → List (ℚ × String)
  | [] => []
  | p :: ps => insertPairDesc p (sortPairsDesc ps)

/-- heapq.nlargest n on (score, candidate) pairs. -/
def nlargestPairs (n : Int) (l : List (ℚ × String)) : List (ℚ × String) :=
  (sortPairsDesc l).take n.toNat

/-- One assignment d[key] = v on a CPython dict modelled as an
insertion-ordered association list: an existing key keeps its position
and gets the new value, a new key is appended. -/
def dictUpsert (m : List (String × ℚ)) (key : String) (v : ℚ) : List (String × ℚ) :=
  if m.any (fun p => p.1 == key) then
    m.map (fun p => if p.1 == key then (key, v) else p)
  else m ++ [(key, v)]

/-- The dict comprehension of get_close_matches, reversing (score,
candidate) pairs into candidate -> score. -/
def dictOfPairs (l : List (ℚ × String)) : List (String × ℚ) :=
  l.foldl (fun m p => dictUpsert m p.2 p.1) []

/-- dict.update(other): assign every pair of other into the dict, in
order. -/
def dictUpdate (m other : List (String × ℚ)) : List (String × ℚ) :=
  other.foldl (fun acc p => dictUpsert acc p.1 p.2) m

/-- Python max(d, key=d.get): the first key of the dict carrying the
maximum value; None models the ValueError on an empty dict. -/
def maxByValue (m : List (String × ℚ)) : Option String :=
  match m with
  | [] => none
  | p :: rest => some ((rest.foldl (fun best q => if best.2 < q.2 then q else best) p).1)

/-- Characters of a string, lowercased, as compared by SequenceMatcher
after get_close_matches lowercases both sides. -/
def toLowerChars (s : String) : List Char :=
  s.data.map Char.toLower

/-- Body of get_close_matches once the arguments are validated. -/
def gcmCore (word : String) (possibilities : List String) (n : Int) (cutoff : ℚ) :
    List (String × ℚ) :=
  let w := toLowerChars word
  let result := possibilities.filterMap (fun x =>
    let r := seqRatio (toLowerChars x) w
    if cutoff ≤ r then some (r, x) else none)
  dictOfPairs (nlargestPairs n result)

/-- get_close_matches of src/target_netsuite/__init__.py: validate n and
cutoff, keep candidates with ratio at least cutoff, return the n best as
a dict candidate -> score. -/
def get_close_matches (word : String) (possibilities : List String)
    (n : Int := 20) (cutoff : ℚ := mkRat 7 10) : Except Err (List (String × ℚ)) :=
  if n ≤ 0 then .error (.valueError s!"n must be > 0: {n}")
  else if ¬(0 ≤ cutoff ∧ cutoff ≤ 1) then
    .error (.valueError s!"cutoff must be in [0.0, 1.0]: {cutoff}")
  else .ok (gcmCore word possibilities n cutoff)

lemma mem_insertPairDesc {x p : ℚ × String} : ∀ {l : List (ℚ × String)},
    x ∈ insertPairDesc p l → x = p ∨ x ∈ l := by
  intro l
  induction l with
  | nil => intro h; simp [insertPairDesc] at h; exact Or.inl h
  | cons q qs ih =>
    intro h
    simp only [insertPairDesc] at h
    split at h
    · rcases List.mem_cons.mp h with h | h
      · exact Or.inl h
      · exact Or.inr h
    · rcases List.mem_cons.mp h with h | h
      · exact Or.inr (h ▸ List.mem_cons_self q qs)
      · rcases ih h with h | h
        · exact Or.inl h
        · exact Or.inr (List.mem_cons_of_mem q h)

lemma mem_sortPairsDesc {x : ℚ × String} : ∀ {l : List (ℚ × String)},
    x ∈ sortPairsDesc l → x ∈ l := by
  intro l
  induction l with
  | nil => intro h; simp [sortPairsDesc] at h
  | cons p ps ih =>
    intro h
    simp only [sortPairsDesc] at h
    rcases mem_insertPairDesc h with h | h
    · exact h ▸ List.mem_cons_self p ps
    · exact List.mem_cons_of_mem p (ih h)

lemma mem_nlargestPairs {x : ℚ × String} {n : Int} {l : List (ℚ × String)}
    (h : x ∈ nlargestPairs n l) : x ∈ l :=
  mem_sortPairsDesc (List.mem_of_mem_take h)

lemma length_dictUpsert (m : List (String × ℚ)) (key : String) (v : ℚ) :
    (dictUpsert m key v).length ≤ m.length + 1 := by
  unfold dictUpsert
  split
  · rw [List.length_map]; omega
  · rw [List.length_append]; simp

lemma mem_dictUpsert {x : String × ℚ} {m : List (String × ℚ)} {key : String} {v : ℚ}
    (h : x ∈ dictUpsert m key v) : x ∈ m ∨ x = (key, v) := by
  unfold dictUpsert at h
  split at h
  · rcases List.mem_map.mp h with ⟨p, hp, hpx⟩
    by_cases hk : p.1 == key
    · right; rw [hk] at hpx; simp at hpx; exact hpx.symm
    · left; simp only [hk] at hpx; simp at hpx; exact hpx ▸ hp
  · rcases List.mem_append.mp h with h | h
    · exact Or.inl h
    · right; simpa using h

lemma length_dictOfPairs_le : ∀ (l : List (ℚ × String)) (m : List (String × ℚ)),
    (l.foldl (fun m p => dictUpsert m p.2 p.1) m).length ≤ m.length + l.length := by
  intro l
  induction l with
  | nil => intro m; simp
  | cons p ps ih =>
    intro m
    simp only [List.foldl_cons, List.length_cons]
    have h1 := ih (dictUpsert m p.2 p.1)
    have h2 := length_dictUpsert m p.2 p.1
    omega

lemma mem_dictOfPairs_foldl : ∀ (l : List (ℚ × String)) (m : List (String × ℚ))
    (x : String × ℚ), x ∈ l.foldl (fun m p => dictUpsert m p.2 p.1) m →
    x ∈ m ∨ (x.2, x.1) ∈ l := by
  intro l
  induction l with
  | nil => intro m x h; simp at h; exact Or.inl h
  | cons p ps ih =>
    intro m x h
    simp only [List.foldl_cons] at h
    rcases ih (dictUpsert m p.2 p.1) x h with h | h
    · rcases mem_dictUpsert h with h | h
      · exact Or.inl h
      · right
        rw [h]
        exact List.mem_cons_self p ps
    · exact Or.inr (List.mem_cons_of_mem p h)

/-- C9: a maxResults value at most 0, or a cutoff outside [0,1], is
rejected by get_close_matches with a ValueError before any matching
happens; otherwise the result maps at most maxResults candidates to
similarity scores, and every returned score lies in [cutoff, 1]. -/
theorem claim9_get_close_matches_contract (word : String) (possibilities : List String)
    (n : Int) (cutoff : ℚ) :
    (n ≤ 0 → ∃ msg, get_close_matches word possibilities n cutoff =
        .error (.valueError msg)) ∧
    ((cutoff < 0 ∨ 1 < cutoff) → 0 < n →
      ∃ msg, get_close_matches word possibilities n cutoff = .error (.valueError msg)) ∧
    (0 < n → 0 ≤ cutoff → cutoff ≤ 1 →
      ∃ m, get_close_matches word possibilities n cutoff = .ok m ∧
        m.length ≤ n.toNat ∧ ∀ p ∈ m, cutoff ≤ p.2 ∧ p.2 ≤ 1) := by
  refine ⟨?_, ?_, ?_⟩
  · intro hn
    exact ⟨s!"n must be > 0: {n}", by rw [get_close_matches, if_pos hn]⟩
  · intro hc hn
    have hn' : ¬ n ≤ 0 := by omega
    have hc' : ¬ (0 ≤ cutoff ∧ cutoff ≤ 1) := by
      rcases hc with h | h
      · intro ⟨h0, _⟩; exact absurd h (not_lt.mpr h0)
      · intro ⟨_, h1⟩; exact absurd h (not_lt.mpr h1)
    exact ⟨s!"cutoff must be in [0.0, 1.0]: {cutoff}",
      by rw [get_close_matches, if_neg hn', if_pos hc']⟩
  · intro hn h0 h1
    have hn' : ¬ n ≤ 0 := by omega
    have hc' : ¬ ¬ (0 ≤ cutoff ∧ cutoff ≤ 1) := not_not.mpr ⟨h0, h1⟩
    refine ⟨gcmCore word possibilities n cutoff, ?_, ?_, ?_⟩
    · rw [get_close_matches, if_neg hn', if_neg hc']
    · unfold gcmCore dictOfPairs
      have hlen := length_dictOfPairs_le
        (nlargestPairs n (possibilities.filterMap (fun x =>
          let r := seqRatio (toLowerChars x) (toLowerChars word)
          if cutoff ≤ r then some (r, x) else none))) []
      simp only [List.length_nil, Nat.zero_add] at hlen
      refine le_trans hlen ?_
      unfold nlargestPairs
      rw [List.length_take]
      exact min_le_left _ _
    · intro p hp
      unfold gcmCore dictOfPairs at hp
      have hsrc := mem_dictOfPairs_foldl _ [] p hp
      simp only [List.not_mem_nil, false_or] at hsrc
      have hres := mem_nlargestPairs hsrc
      rcases List.mem_filterMap.mp hres with ⟨y, _, hfy⟩
      split at hfy
      · rename_i hcut
        have h2 : p.2 = seqRatio (toLowerChars y) (toLowerChars word) ∧ p.1 = y := by
          have := Option.some.inj hfy
          constructor
          · exact (congrArg Prod.fst this).symm
          · exact (congrArg Prod.snd this).symm
        refine ⟨h2.1 ▸ hcut, h2.1 ▸ seqRatio_le_one _ _⟩
      · exact absurd hfy (by simp)

/-- Witness for C9 at concrete inputs: maxResults 0 is rejected, cutoff
2 is rejected, and a valid call returns one candidate with score in
[cutoff, 1]. -/
theorem claim9_witness :
    (∃ msg, get_close_matches "ab" ["ab"] 0 (mkRat 7 10) = .error (.valueError msg)) ∧
    (∃ msg, get_close_matches "ab" ["ab"] 20 2 = .error (.valueError msg)) ∧
    (∃ m, get_close_matches "ab" ["ab", "xy"] 20 (mkRat 7 10) = .ok m ∧
      m.length ≤ (20 : Int).toNat ∧ ∀ p ∈ m, mkRat 7 10 ≤ p.2 ∧ p.2 ≤ 1) :=
  ⟨(claim9_get_close_matches_contract "ab" ["ab"] 0 (mkRat 7 10)).1 (by decide),
   (claim9_get_close_matches_contract "ab" ["ab"] 20 2).2.1 (Or.inr (by decide)) (by decide),
   (claim9_get_close_matches_contract "ab" ["ab", "xy"] 20 (mkRat 7 10)).2.2
     (by decide) (by decide) (by decide)⟩

/-! ## Data model

Reference records as fetched by get_reference_data (each kind with the
fields the code reads), one input row, and the NetSuite journal-entry
records built by build_lines.  SDK records always carry internalId, so
it is a plain String; fields read through .get are Options.  SKU and
custom-field handling (the customFieldList block) is not modelled: no
claim touches it and it only reads config and appends opaque values.
The tranDate value pd.to_datetime is modelled as the raw string. -/

/-- A record reference dict as attached to lines and entries: name,
externalId, internalId, compared by Python dict equality. -/
structure RecordRef where
  name : Option String
  externalId : Option String
  internalId : Option String
  deriving DecidableEq, Repr

/-- An Accounts reference record (acctName, acctNumber, subsidiaryList,
parent, plus the identifiers).  The subsidiaryList is modelled as the
list of its record refs; the wrapped dict shape with a recordRef key
behaves identically (first element or nothing). -/
structure Account where
  acctName : String
  acctNumber : Option String
  internalId : String
  externalId : Option String
  parentName : Option String
  subsidiaryList : List RecordRef
  deriving DecidableEq, Repr

/-- A Subsidiaries reference record. -/
structure SubsidiaryRec where
  name : String
  internalId : String
  parentName : Option String
  deriving DecidableEq, Repr

/-- A Customer reference record with the four alias fields, the
subsidiary back-reference and the inactive flag. -/
structure CustomerRec where
  name : Option String
  entityId : Option String
  altName : Option String
  companyName : Option String
  internalId : String
  externalId : Option String
  subsidiaryInternalId : String
  isInactive : Bool
  deriving DecidableEq, Repr

/-- A Currencies reference record. -/
structure CurrencyRec where
  symbol : String
  internalId : String
  externalId : Option String
  deriving DecidableEq, Repr

/-- A Classifications or Departments reference record (name and optional
parent). -/
structure NamedRec where
  name : String
  internalId : String
  externalId : Option String
  parentName : Option String
  deriving DecidableEq, Repr

/-- A Locations reference record. -/
structure LocationRec where
  name : String
  internalId : String
  externalId : Option String
  deriving DecidableEq, Repr

/-- The reference data fetched once per run; a kind that was not fetched
or came back empty is the empty list (both are falsy for the
ref_data.get(...) guards). -/
structure RefData where
  accounts : List Account
  subsidiaries : List SubsidiaryRec
  customers : List CustomerRec
  currencies : List CurrencyRec
  classifications : List NamedRec
  departments : List NamedRec
  locations : List LocationRec
  deriving Repr

/-- One CSV row after read_input_data replaced every null token by None.
Numeric cells are modelled by their string rendering (a float Subsidiary
like 3.0 appears as its digit string).  The two spellings Customer Id
and Customer ID are merged into one field exactly as line 355 does. -/
structure Row where
  journalEntryId : Option String
  transactionDate : Option String
  postingType : String
  accountNumber : Option String
  accountName : Option String
  amount : Option ℚ
  subsidiary : Option String
  customerName : Option String
  customerId : Option String
  currency : Option String
  className : Option String
  department : Option String
  location : Option String
  description : Option String
  journalDesc : Option String
  deriving DecidableEq, Repr

/-- One built JournalEntryLine. -/
structure JournalEntryLine where
  account : RecordRef
  cls : Option RecordRef
  department : Option RecordRef
  location : Option RecordRef
  entity : Option RecordRef
  credit : Option ℚ
  debit : Option ℚ
  memo : Option String
  deriving DecidableEq, Repr

/-- One built JournalEntry. -/
structure JournalEntry where
  externalId : Option String
  tranDate : Option String
  lineList : List JournalEntryLine
  currency : Option RecordRef
  subsidiary : Option RecordRef
  toSubsidiary : Option RecordRef
  memo : Option String
  deriving DecidableEq, Repr

/-- The journal-level subsidiary of build_lines lines 181-191.  On the
numeric path the dict is only a bare internalId and carries no name key
(nameKey = none); on the name-lookup path it is the full reference
record, whose name key is present. -/
structure JournalSub where
  internalId : String
  nameKey : Option String
  deriving DecidableEq, Repr

/-- The subsidiaries accumulator dict of build_lines (at most the two
keys subsidiary and toSubsidiary). -/
structure Subsidiaries where
  sub : Option RecordRef
  toSub : Option RecordRef
  deriving DecidableEq, Repr

/-- A per-row assignment into the subsidiaries accumulator: credit rows
write toSubsidiary, debit rows write subsidiary. -/
inductive SubUpd where
  | toSub (r : RecordRef)
  | sub (r : RecordRef)
  deriving DecidableEq, Repr

/-! ## build_lines -/

/-- The parent-qualified display name parent.name : name used for
hierarchical reference kinds. -/
def parentQualName (p : Option String) (nm : String) : Option String :=
  p.map (fun q => q ++ " : " ++ nm)

/-- Lines 180-191: resolve the journal-level Subsidiary from the first
row of the group (only when Subsidiaries reference data is present), as
a bare internalId when the value is numeric, else by exact name lookup,
raising when the name matches no reference subsidiary. -/
def journalSubsidiary (rows : List Row) (ref : RefData) : Except Err (Option JournalSub) :=
  match rows.head? with
  | none => .ok none
  | some r0 =>
    if ref.subsidiaries.isEmpty then .ok none
    else
      match r0.subsidiary with
      | none => .ok none
      | some s =>
        if s = "" then .ok none
        else if pyIsDigit s then .ok (some ⟨s, none⟩)
        else
          match ref.subsidiaries.filter (fun t => t.name == s) with
          | [] => .error (.exception s!"Journal Subsidiary {s} is not a valid subsidiary.")
          | t :: _ => .ok (some ⟨t.internalId, some t.name⟩)

/-- Lines 196-237: resolve the account of one row.  Result .ok none is
the skip signal of the continue on line 228. -/
def resolveAccount (row : Row) (ref : RefData) : Except Err (Option Account) :=
  if !ref.accounts.isEmpty && optTruthy row.accountNumber then
    let acctNum := row.accountNumber.getD ""
    match ref.accounts.filter (fun a => a.acctNumber == some acctNum) with
    | [] => .error (.valueError
        s!"Account Number {acctNum} is not found in this Netsuite account")
    | a0 :: rest =>
      if !rest.isEmpty && optTruthy row.accountName then
        let acctNameQ := row.accountName.getD ""
        let parentNames := ref.accounts.filterMap
          (fun a => parentQualName a.parentName a.acctName)
        let noParentNames := (ref.accounts.filter (fun a => a.parentName.isNone)).map
          (fun a => a.acctName)
        match get_close_matches acctNameQ (parentNames ++ noParentNames) 20 (mkRat 7 10) with
        | .error e => .error e
        | .ok d =>
          match maxByValue d with
          | none => .error (.valueError "max() arg is an empty sequence")
          | some nm =>
            match ref.accounts.filter (fun a =>
                (parentQualName a.parentName a.acctName == some nm) || a.acctName == nm) with
            | [] => .error (.valueError
                s!"Account Number {acctNum} with Account Name {acctNameQ} does not match options")
            | b0 :: _ => .ok (some b0)
      else .ok (some a0)
  else if !ref.accounts.isEmpty && optTruthy row.accountName then
    let acctNameQ := row.accountName.getD ""
    match ref.accounts.filter (fun a => a.acctName == acctNameQ) with
    | [] => .ok none
    | a0 :: _ => .ok (some a0)
  else .error (.typeError "Account Number or Account Name is required")

/-- Lines 240-291: resolve the row-level subsidiary, numeric values as a
bare internalId, names through the hierarchical-then-plain fuzzy match,
falling back to the first entry of the matched account subsidiaryList
when the row has no Subsidiary value. -/
def resolveRowSubsidiary (row : Row) (acctData : Account) (ref : RefData) :
    Except Err (Option RecordRef) :=
  match row.subsidiary with
  | some s =>
    if pyIsDigit s then .ok (some ⟨none, none, some s⟩)
    else
      let parentNames := ref.subsidiaries.filterMap
        (fun t => parentQualName t.parentName t.name)
      let noParentNames := (ref.subsidiaries.filter (fun t => t.parentName.isNone)).map
        (fun t => t.name)
      match get_close_matches s (parentNames ++ noParentNames) 20 (mkRat 7 10) with
      | .error e => .error e
      | .ok d1 =>
        match get_close_matches s (ref.subsidiaries.map (fun t => t.name)) 20 (mkRat 7 10) with
        | .error e => .error e
        | .ok d2 =>
          match maxByValue (dictUpdate d1 d2) with
          | none => .ok none
          | some nm =>
            match ref.subsidiaries.filter (fun t =>
                (parentQualName t.parentName t.name == some nm) || t.name == nm) with
            | t :: _ => .ok (some ⟨none, none, some t.internalId⟩)
            | [] => .ok none
  | none => .ok acctData.subsidiaryList.head?

/-- Lines 292-298: route the resolved subsidiary by Posting Type.
Raising the bare string on line 298 makes Python raise a TypeError
(exceptions must derive from BaseException); either way the entry is
aborted.  Nothing is checked when no subsidiary was resolved. -/
def subUpdFor (subsidiary : Option RecordRef) (postingType : String) :
    Except Err (Option SubUpd) :=
  match subsidiary with
  | none => .ok none
  | some s =>
    if strToLower postingType == "credit" then .ok (some (.toSub s))
    else if strToLower postingType == "debit" then .ok (some (.sub s))
    else .error (.typeError "exceptions must derive from BaseException")

/-- Lines 301-340: the Class and Department hierarchical fuzzy
resolution; unresolved values leave the field absent. -/
def resolveHier (v : Option String) (recs : List NamedRec) : Except Err (Option RecordRef) :=
  if !recs.isEmpty && optTruthy v then
    let q := v.getD ""
    let parentNames := recs.filterMap (fun r => parentQualName r.parentName r.name)
    let noParentNames := (recs.filter (fun r => r.parentName.isNone)).map (fun r => r.name)
    match get_close_matches q (parentNames ++ noParentNames) 20 (mkRat 7 10) with
    | .error e => .error e
    | .ok d =>
      match maxByValue d with
      | none => .ok none
      | some nm =>
        match recs.filter (fun r =>
            (parentQualName r.parentName r.name == some nm) || r.name == nm) with
        | r0 :: _ => .ok (some ⟨some r0.name, r0.externalId, some r0.internalId⟩)
        | [] => .ok none
  else .ok none

/-- Lines 343-351: Location, exact name match only. -/
def resolveLocation (v : Option String) (locs : List LocationRec) : Option RecordRef :=
  if !locs.isEmpty && optTruthy v then
    match locs.filter (fun l => l.name == v.getD "") with
    | l0 :: _ => some ⟨some l0.name, l0.externalId, some l0.internalId⟩
    | [] => none
  else none

/-- The entity dict attached to a line (externalId and internalId only,
no name key). -/
def mkEntityRef (c : CustomerRec) : RecordRef :=
  ⟨none, c.externalId, some c.internalId⟩

/-- Lines 377-388: the alias pool of active customers, in record order,
each truthy alias appended in the order name, entityId, altName,
companyName. -/
def customerNamesOf (customers : List CustomerRec) : List String :=
  customers.foldl (fun acc c =>
    if c.isInactive then acc
    else acc ++ optNameList c.name ++ optNameList c.entityId ++
      optNameList c.altName ++ optNameList c.companyName) []

/-- Lines 361-374: the Customer-ID candidate list: match internalId or
entityId, drop inactive customers, scope to the journal subsidiary when
one is resolved, and narrow duplicates by companyName when a Customer
Name is present. -/
def idPathCustomers (cid : String) (cname : Option String) (js : Option JournalSub)
    (customers : List CustomerRec) : List CustomerRec :=
  let cs := customers.filter (fun c =>
    (c.internalId == cid || c.entityId == some cid) && !c.isInactive)
  let cs := match js with
    | some j => cs.filter (fun c => c.subsidiaryInternalId == j.internalId)
    | none => cs
  if cs.length > 1 && optTruthy cname then
    cs.filter (fun c => c.companyName == cname)
  else cs

/-- One append pass of the customer_data loop of lines 397-409: a
customer is appended once per alias equal to the matched name. -/
def customerAliasAppend (nm : String) (acc : List CustomerRec) (c : CustomerRec) :
    List CustomerRec :=
  let acc := if c.name == some nm then acc ++ [c] else acc
  let acc := if c.entityId == some nm then acc ++ [c] else acc
  let acc := if c.altName == some nm then acc ++ [c] else acc
  if c.companyName == some nm then acc ++ [c] else acc

/-- The customer_data list built for a matched name. -/
def customerDataFor (nm : String) (customers : List CustomerRec) : List CustomerRec :=
  customers.foldl (customerAliasAppend nm) []

/-- Lines 376-424: the Customer-Name path.  An exact alias hit skips the
fuzzy matcher with score 1; otherwise get_close_matches runs with n = 2
and cutoff 0.95 on the raw Customer Name cell (None there raises the
AttributeError of None.lower()).  An empty match dict leaves the entity
absent.  When the journal-subsidiary filter empties the candidates, the
raise on line 424 reads journal_subsidiary[name], a KeyError when the
journal subsidiary came from the numeric path. -/
def customerNamePath (cname cid : Option String) (js : Option JournalSub) (ref : RefData) :
    Except Err (Option RecordRef) :=
  let names := customerNamesOf ref.customers
  match cname with
  | none => .error (.attributeError "NoneType object has no attribute lower")
  | some nm0 =>
    match (if names.contains nm0 then Except.ok [(nm0, (1 : ℚ))]
           else get_close_matches nm0 names 2 (mkRat 95 100)) with
    | .error e => .error e
    | .ok d =>
      match maxByValue d with
      | none => .ok none
      | some nm =>
        match customerDataFor nm ref.customers with
        | [] => .error (.exception s!"Customer {nm} was not found")
        | c0 :: cs =>
          match js with
          | none => .ok (some (mkEntityRef c0))
          | some j =>
            match (c0 :: cs).filter (fun c => c.subsidiaryInternalId == j.internalId) with
            | d0 :: _ => .ok (some (mkEntityRef d0))
            | [] =>
              match j.nameKey with
              | some jn => .error (.exception
                  s!"Customer with name {nm} or id {pyOptStr cid} does not belong to journal subsidiary {j.internalId} with id {jn}")
              | none => .error (.keyError "name")

/-- Lines 353-429: resolve the customer of one row.  The name path runs
when no truthy Customer ID is present or the ID candidates came up
empty. -/
def resolveCustomer (row : Row) (js : Option JournalSub) (ref : RefData) :
    Except Err (Option RecordRef) :=
  let cname := row.customerName
  let cid := row.customerId
  if !ref.customers.isEmpty && (cname.isSome || cid.isSome) then
    if optTruthy cid then
      match idPathCustomers (cid.getD "") cname js ref.customers with
      | c0 :: _ => .ok (some (mkEntityRef c0))
      | [] => customerNamePath cname cid js ref
    else customerNamePath cname cid js ref
  else .ok none

/-- Round half to even at the integer, on an exact rational, written on
the numerator and denominator so that it evaluates by kernel
reduction. -/
def roundHalfEvenQ (x : ℚ) : Int :=
  let N := x.num
  let D := (x.den : Int)
  let f := N.ediv D
  let rem := N.emod D
  if 2 * rem < D then f
  else if D < 2 * rem then f + 1
  else if f.emod 2 = 0 then f else f + 1

/-- Python round(q, 2) on an exact rational (the idealization of float
banker rounding at two decimals). -/
def round2 (q : ℚ) : ℚ :=
  mkRat (roundHalfEvenQ (mkRat (q.num * 100) q.den)) 100

/-- Python abs on a rational. -/
def pyAbs (q : ℚ) : ℚ :=
  if q < 0 then mkRat (-q.num) q.den else q

/-- Line 455: the line amount, 0 for a missing or NaN Amount, else the
absolute value of the amount rounded to 2 decimals. -/
def lineAmount (amount : Option ℚ) : ℚ :=
  match amount with
  | none => 0
  | some a => pyAbs (round2 a)

/-- Lines 195-465 for one row: build one JournalEntryLine (or the skip
signal) together with the subsidiaries-dict assignment of the row. -/
def buildLine (row : Row) (js : Option JournalSub) (ref : RefData) :
    Except Err (Option (JournalEntryLine × Option SubUpd)) :=
  match resolveAccount row ref with
  | .error e => .error e
  | .ok none => .ok none
  | .ok (some acctData) =>
    let refAcct : RecordRef := ⟨some acctData.acctName, acctData.externalId,
      some acctData.internalId⟩
    match resolveRowSubsidiary row acctData ref with
    | .error e => .error e
    | .ok subsidiary =>
      match subUpdFor subsidiary row.postingType with
      | .error e => .error e
      | .ok subUpd =>
        match resolveHier row.className ref.classifications with
        | .error e => .error e
        | .ok cls =>
          match resolveHier row.department ref.departments with
          | .error e => .error e
          | .ok dept =>
            let loc := resolveLocation row.location ref.locations
            match resolveCustomer row js ref with
            | .error e => .error e
            | .ok entity =>
              let amount := lineAmount row.amount
              let credit := if strToLower row.postingType == "credit" then some amount
                else none
              let debit := if strToLower row.postingType == "debit" then some amount
                else none
              .ok (some (⟨refAcct, cls, dept, loc, entity, credit, debit,
                row.description⟩, subUpd))

/-- Apply a subsidiaries-dict assignment. -/
def applyUpd (s : Subsidiaries) : Option SubUpd → Subsidiaries
  | some (.toSub r) => { s with toSub := some r }
  | some (.sub r) => { s with sub := some r }
  | none => s

/-- The row loop of build_lines: skipped rows leave the accumulator
unchanged, errors abort the entry. -/
def buildLinesLoop (js : Option JournalSub) (ref : RefData) :
    List Row → List JournalEntryLine × Subsidiaries →
    Except Err (List JournalEntryLine × Subsidiaries)
  | [], acc => .ok acc
  | row :: rest, acc =>
    match buildLine row js ref with
    | .error e => .error e
    | .ok none => buildLinesLoop js ref rest acc
    | .ok (some (line, upd)) =>
      buildLinesLoop js ref rest (acc.1 ++ [line], applyUpd acc.2 upd)

/-- Lines 467-482: the per-group currency, read from the loop variable
row after the loop, i.e. from the last row of the group. -/
def resolveCurrency (rows : List Row) (ref : RefData) : Except Err (Option RecordRef) :=
  match rows.getLast? with
  | none => .ok none
  | some lastRow =>
    if !ref.currencies.isEmpty && optTruthy lastRow.currency then
      let sym := lastRow.currency.getD ""
      match ref.currencies.filter (fun c => c.symbol == sym) with
      | [] => .error (.exception s!"Currency {sym} not found")
      | c0 :: _ => .ok (some ⟨some c0.symbol, c0.externalId, some c0.internalId⟩)
    else .ok none

/-- Lines 484-487: drop toSubsidiary when both keys are present and
equal. -/
def dedupSubsidiaries (s : Subsidiaries) : Subsidiaries :=
  match s.sub, s.toSub with
  | some a, some b => if a = b then { s with toSub := none } else s
  | _, _ => s

/-- build_lines of src/target_netsuite/__init__.py for one group of
rows.  The config argument of the source only feeds the elided SKU and
custom-field block and is dropped here. -/
def build_lines (rows : List Row) (ref : RefData) : Except Err JournalEntry :=
  match journalSubsidiary rows ref with
  | .error e => .error e
  | .ok js =>
    match buildLinesLoop js ref rows ([], ⟨none, none⟩) with
    | .error e => .error e
    | .ok (lineItems, subs) =>
      match resolveCurrency rows ref with
      | .error e => .error e
      | .ok currencyRef =>
        let subs := dedupSubsidiaries subs
        .ok { externalId := rows.head?.bind (fun r => r.journalEntryId),
              tranDate := rows.head?.bind (fun r => r.transactionDate),
              lineList := lineItems,
              currency := currencyRef,
              subsidiary := subs.sub,
              toSubsidiary := subs.toSub,
              memo := rows.head?.bind (fun r => r.journalDesc) }

/-! ## load_journal_entries

Lines 512-526.  pandas groupby with the default dropna=True excludes
every row whose group key holds a null; group keys are modelled in
first-occurrence order (pandas sorts them, which no claim depends on),
and each group is the sublist of rows carrying that key. -/

/-- Distinct values of a list, first occurrence first. -/
def distinctKeys {α : Type} [DecidableEq α] (l : List α) : List α :=
  l.foldl (fun acc k => if k ∈ acc then acc else acc ++ [k]) []

/-- The non-null (Journal Entry Id, Subsidiary) group keys. -/
def groupKeysWithSub (rows : List Row) : List (String × String) :=
  distinctKeys (rows.filterMap (fun r =>
    match r.journalEntryId, r.subsidiary with
    | some j, some s => some (j, s)
    | _, _ => none))

/-- The groups of groupby([Journal Entry Id, Subsidiary]): rows whose
keys are null belong to no group. -/
def groupsWithSub (rows : List Row) : List (List Row) :=
  (groupKeysWithSub rows).map (fun k => rows.filter (fun r =>
    r.journalEntryId == some k.1 && r.subsidiary == some k.2))

/-- The non-null Journal Entry Id group keys. -/
def groupKeysNoSub (rows : List Row) : List String :=
  distinctKeys (rows.filterMap (fun r => r.journalEntryId))

/-- The groups of groupby([Journal Entry Id]). -/
def groupsNoSub (rows : List Row) : List (List Row) :=
  (groupKeysNoSub rows).map (fun k => rows.filter (fun r => r.journalEntryId == some k))

/-- load_journal_entries: group by (Journal Entry Id, Subsidiary) when a
Subsidiary column is present, else by Journal Entry Id alone, and build
one entry per group.  (The source only converts RuntimeError; the
resolution errors modelled here propagate unchanged.) -/
def load_journal_entries (rows : List Row) (hasSubsidiaryCol : Bool) (ref : RefData) :
    Except Err (List JournalEntry) :=
  (if hasSubsidiaryCol then groupsWithSub rows else groupsNoSub rows).mapM
    (fun g => build_lines g ref)

/-! ## post_journal_entries

Lines 529-546: on a submission failure the error text is searched for
the pattern Invalid entity reference key (digits) for subsidiary
(digits); a match is translated using the reference data, anything else
propagates the original error.  The translation guards the subsidiary
name lookup on the entity lookup result (line 543), so a matched message
whose subsidiary id is unknown crashes with an IndexError whenever the
entity id is known. -/

/-- Strip an exact literal prefix from a character list. -/
def literalStrip : List Char → List Char → Option (List Char)
  | [], cs => some cs
  | _ :: _, [] => none
  | p :: ps, c :: cs => if p = c then literalStrip ps cs else none

/-- Split off the longest leading digit run. -/
def takeDigitsFrom : List Char → List Char × List Char
  | [] => ([], [])
  | c :: rest =>
    if c.isDigit then
      let (d, r) := takeDigitsFrom rest
      (c :: d, r)
    else ([], c :: rest)

/-- Try the regex Invalid entity reference key (digits) for subsidiary
(digits) anchored at the start of the list. -/
def entityRefMatchAt (cs : List Char) : Option (String × String) :=
  match literalStrip "Invalid entity reference key ".data cs with
  | none => none
  | some rest1 =>
    match takeDigitsFrom rest1 with
    | ([], _) => none
    | (d1, rest2) =>
      match literalStrip " for subsidiary ".data rest2 with
      | none => none
      | some rest3 =>
        match takeDigitsFrom rest3 with
        | ([], _) => none
        | (d2, _) => some (String.mk d1, String.mk d2)

/-- re.search: the leftmost match of the pattern. -/
def entityRefSearch : List Char → Option (String × String)
  | [] => none
  | c :: cs =>
    match entityRefMatchAt (c :: cs) with
    | some r => some r
    | none => entityRefSearch cs

/-- The message of line 544 (without the Python quote characters). -/
def entityRefMsg (entityName entityId subsidiaryName subsidiaryId : String) : String :=
  s!"Customer {entityName} with id {entityId} cannot be used with subsidiary {subsidiaryName} with id {subsidiaryId}"

/-- The except branch of post_journal_entries, given the text of the
submission failure: the error the orchestrator raises. -/
def post_error_translate (msg : String) (ref : RefData) : Err :=
  match entityRefSearch msg.data with
  | none => .exception msg
  | some (entityId, subsidiaryId) =>
    match ref.customers.filter (fun c => c.internalId == entityId) with
    | [] => .exception (entityRefMsg "" entityId "" subsidiaryId)
    | c0 :: _ =>
      match ref.subsidiaries.filter (fun s => s.internalId == subsidiaryId) with
      | [] => .indexError "list index out of range"
      | s0 :: _ => .exception (entityRefMsg (pyOptStr c0.companyName) entityId
          s0.name subsidiaryId)

/-! ## Claim C8 -/

/-- A submission failure text matching the known pattern. -/
def msgC8 : String := "Invalid entity reference key 7 for subsidiary 9"

/-- Reference data knowing customer 7 but not subsidiary 9. -/
def refC8a : RefData :=
  { accounts := [], subsidiaries := [],
    customers := [⟨some "c", none, none, some "Acme", "7", none, "1", false⟩],
    currencies := [], classifications := [], departments := [], locations := [] }

/-- Reference data knowing subsidiary 9 but not customer 7. -/
def refC8b : RefData :=
  { accounts := [], subsidiaries := [⟨"SubNine", "9", none⟩], customers := [],
    currencies := [], classifications := [], departments := [], locations := [] }

/-- C8: the claim says a matched submission failure is re-raised with
both numeric IDs translated into names.  The code instead guards the
subsidiary name lookup on the entity lookup: with the customer id known
and the subsidiary id unknown it crashes with an IndexError, and with
the customer id unknown it leaves the known subsidiary name
untranslated. -/
theorem claim8_translation_slip_eval :
    post_error_translate msgC8 refC8a = .indexError "list index out of range" ∧
    post_error_translate msgC8 refC8b =
      .exception (entityRefMsg "" "7" "" "9") := by
  constructor
  · rfl
  · rfl

/-! ## Claim C10 -/

/-- C10: when the input has a Subsidiary column, a row whose Subsidiary
is null is excluded from every (Journal Entry Id, Subsidiary) group and
therefore contributes no line to any built JournalEntry. -/
theorem claim10_null_subsidiary_row_dropped (rows : List Row) (row : Row)
    (_hmem : row ∈ rows) (hnull : row.subsidiary = none) :
    ∀ g ∈ groupsWithSub rows, row ∉ g := by
  intro g hg hrowg
  rcases List.mem_map.mp hg with ⟨k, _, hgk⟩
  rw [← hgk] at hrowg
  have hcond := (List.mem_filter.mp hrowg).2
  rw [hnull] at hcond
  simp at hcond

/-- A row with a null Subsidiary next to a well-formed row. -/
def rowC10a : Row :=
  { journalEntryId := some "JE1", transactionDate := none, postingType := "debit",
    accountNumber := some "1", accountName := none, amount := none,
    subsidiary := none, customerName := none, customerId := none,
    currency := none, className := none, department := none, location := none,
    description := none, journalDesc := none }

/-- A row carrying a Subsidiary value. -/
def rowC10b : Row :=
  { rowC10a with subsidiary := some "3" }

/-- Witness for C10: the only group of the two-row input is the
singleton holding the non-null row, and the null-Subsidiary row is not
in it. -/
theorem claim10_witness : rowC10a ∉ [rowC10b] :=
  claim10_null_subsidiary_row_dropped [rowC10a, rowC10b] rowC10a
    (List.mem_cons_self rowC10a [rowC10b]) rfl [rowC10b] (by decide)

/-! ## Claim C2 -/

lemma optTruthy_some_ne {s : String} (h : s ≠ "") : optTruthy (some s) = true := by
  simp [optTruthy, h]

lemma isEmpty_false_of_ne_nil {α : Type} {l : List α} (h : l ≠ []) : l.isEmpty = false := by
  cases l with
  | nil => exact absurd rfl h
  | cons a as => rfl

lemma buildLine_error_of_account {row : Row} {ref : RefData} {e : Err}
    (h : resolveAccount row ref = .error e) (js : Option JournalSub) :
    buildLine row js ref = .error e := by
  unfold buildLine
  rw [h]

lemma buildLinesLoop_error {ref : RefData} {js : Option JournalSub} {row : Row} {e : Err}
    (herr : buildLine row js ref = .error e) :
    ∀ rows acc, row ∈ rows → ∃ x, buildLinesLoop js ref rows acc = .error x := by
  intro rows
  induction rows with
  | nil => intro acc h; simp at h
  | cons r rs ih =>
    intro acc hmem
    rcases List.mem_cons.mp hmem with hr | hr
    · subst hr
      exact ⟨e, by simp only [buildLinesLoop, herr]⟩
    · cases hb : buildLine r js ref with
      | error e0 => exact ⟨e0, by simp only [buildLinesLoop, hb]⟩
      | ok res =>
        cases res with
        | none =>
          obtain ⟨x, hx⟩ := ih acc hr
          exact ⟨x, by simp only [buildLinesLoop, hb]; exact hx⟩
        | some lu =>
          obtain ⟨x, hx⟩ := ih (acc.1 ++ [lu.1], applyUpd acc.2 lu.2) hr
          exact ⟨x, by simp only [buildLinesLoop, hb]; exact hx⟩

lemma build_lines_aborts {rows : List Row} {ref : RefData} {row : Row}
    (hmem : row ∈ rows) (herr : ∀ js, ∃ e, buildLine row js ref = .error e) :
    ∃ x, build_lines rows ref = .error x := by
  unfold build_lines
  cases hjs : journalSubsidiary rows ref with
  | error e0 => exact ⟨e0, rfl⟩
  | ok js =>
    obtain ⟨e, he⟩ := herr js
    obtain ⟨x, hl⟩ := buildLinesLoop_error he rows ([], ⟨none, none⟩) hmem
    dsimp only
    rw [hl]
    exact ⟨x, rfl⟩

/-- C2: account resolution per row: a supplied Account Number matching
no reference account raises a ValueError that aborts the whole entry; a
supplied Account Name alone with no exact acctName match makes the row
a skip that leaves the loop state untouched while later rows still run;
neither identifier supplied raises the TypeError configuration error.
(Reference accounts are nonempty whenever account columns carry data,
since get_reference_data fetches them unconditionally then.) -/
theorem claim2_account_resolution_policy (row : Row) (ref : RefData) :
    (∀ numS, ref.accounts ≠ [] → row.accountNumber = some numS → numS ≠ "" →
      ref.accounts.filter (fun a => a.acctNumber == some numS) = [] →
      resolveAccount row ref = .error (.valueError
        s!"Account Number {numS} is not found in this Netsuite account") ∧
      ∀ rows, row ∈ rows → ∃ x, build_lines rows ref = .error x) ∧
    (∀ nameS, ref.accounts ≠ [] → optTruthy row.accountNumber = false →
      row.accountName = some nameS → nameS ≠ "" →
      ref.accounts.filter (fun a => a.acctName == nameS) = [] →
      (∀ js, buildLine row js ref = .ok none) ∧
      ∀ js rest acc, buildLinesLoop js ref (row :: rest) acc =
        buildLinesLoop js ref rest acc) ∧
    (optTruthy row.accountNumber = false → optTruthy row.accountName = false →
      resolveAccount row ref = .error
        (.typeError "Account Number or Account Name is required")) := by
  refine ⟨?_, ?_, ?_⟩
  · intro numS hne hnum hns hfilter
    have hcond : (!ref.accounts.isEmpty && optTruthy row.accountNumber) = true := by
      rw [isEmpty_false_of_ne_nil hne, hnum, optTruthy_some_ne hns]
      rfl
    have hra : resolveAccount row ref = .error (.valueError
        s!"Account Number {numS} is not found in this Netsuite account") := by
      unfold resolveAccount
      rw [if_pos hcond]
      simp only [hnum, Option.getD_some]
      rw [hfilter]
    refine ⟨hra, ?_⟩
    intro rows hmem
    exact build_lines_aborts hmem (fun js => ⟨_, buildLine_error_of_account hra js⟩)
  · intro nameS hne hnumf hname hns hfilter
    have hcond1 : (!ref.accounts.isEmpty && optTruthy row.accountNumber) = false := by
      rw [hnumf]
      simp
    have hcond2 : (!ref.accounts.isEmpty && optTruthy row.accountName) = true := by
      rw [isEmpty_false_of_ne_nil hne, hname, optTruthy_some_ne hns]
      rfl
    have hra : resolveAccount row ref = .ok none := by
      unfold resolveAccount
      rw [hcond1, hcond2]
      simp only [Bool.false_eq_true, if_false, if_true]
      simp only [hname, Option.getD_some]
      rw [hfilter]
    constructor
    · intro js
      unfold buildLine
      rw [hra]
    · intro js rest acc
      have hbl : buildLine row js ref = .ok none := by
        unfold buildLine
        rw [hra]
      simp only [buildLinesLoop, hbl]
  · intro hnumf hnamef
    have hcond1 : (!ref.accounts.isEmpty && optTruthy row.accountNumber) = false := by
      rw [hnumf]; simp
    have hcond2 : (!ref.accounts.isEmpty && optTruthy row.accountName) = false := by
      rw [hnamef]; simp
    unfold resolveAccount
    rw [hcond1, hcond2]
    simp

/-- One reference account, number 1; none carries number 77. -/
def refC2 : RefData :=
  { accounts := [⟨"Cash", some "1", "a1", none, none, []⟩], subsidiaries := [],
    customers := [], currencies := [], classifications := [], departments := [],
    locations := [] }

/-- A row asking for the unknown Account Number 77. -/
def rowC2a : Row :=
  { journalEntryId := some "JE1", transactionDate := none, postingType := "debit",
    accountNumber := some "77", accountName := none, amount := none,
    subsidiary := none, customerName := none, customerId := none, currency := none,
    className := none, department := none, location := none, description := none,
    journalDesc := none }

/-- A row asking only for the unknown Account Name Petty. -/
def rowC2b : Row :=
  { rowC2a with accountNumber := none, accountName := some "Petty" }

/-- A row with neither account identifier. -/
def rowC2c : Row :=
  { rowC2a with accountNumber := none, accountName := none }

/-- Witness for C2 at concrete inputs: the unknown number aborts the
entry, the unknown name-only row is skipped leaving the loop untouched,
and the identifier-free row raises the TypeError. -/
theorem claim2_witness :
    (∃ x, build_lines [rowC2a] refC2 = .error x) ∧
    buildLine rowC2b none refC2 = .ok none ∧
    resolveAccount rowC2c refC2 = .error
      (.typeError "Account Number or Account Name is required") := by
  refine ⟨?_, ?_, ?_⟩
  · exact ((claim2_account_resolution_policy rowC2a refC2).1 "77" (by decide) rfl
      (by decide) (by decide)).2 [rowC2a] (List.mem_cons_self rowC2a [])
  · exact (((claim2_account_resolution_policy rowC2b refC2).2.1 "Petty" (by decide) rfl
      rfl (by decide) (by decide)).1 none)
  · exact (claim2_account_resolution_policy rowC2c refC2).2.2 rfl rfl

/-! ## Claim C3 -/

/-- First of two reference accounts sharing number 100. -/
def acctC3x : Account := ⟨"X", some "100", "a1", none, none, []⟩

/-- Second of two reference accounts sharing number 100. -/
def acctC3y : Account := ⟨"Y", some "100", "a2", none, none, []⟩

/-- Reference data with a duplicated account number. -/
def refC3 : RefData :=
  { accounts := [acctC3x, acctC3y], subsidiaries := [], customers := [],
    currencies := [], classifications := [], departments := [], locations := [] }

/-- A row naming the duplicated number 100 and no Account Name. -/
def rowC3 : Row :=
  { journalEntryId := some "JE1", transactionDate := none, postingType := "debit",
    accountNumber := some "100", accountName := none, amount := none,
    subsidiary := none, customerName := none, customerId := none, currency := none,
    className := none, department := none, location := none, description := none,
    journalDesc := none }

/-- Counterexample to C3: with two reference accounts sharing Account
Number 100 and no Account Name on the row, resolution does not fail: the
entry is built and the line silently carries the first candidate a1. -/
theorem claim3_silent_pick_counterexample :
    (build_lines [rowC3] refC3).map
      (fun e => e.lineList.map (fun l => l.account.internalId)) = .ok [some "a1"] := by
  rfl

/-- C3 amended: when several reference accounts share the supplied
Account Number, the resolver picks the first of them silently if no
Account Name is present; with an Account Name it never skips the row,
and any successful resolution returns the first account carrying the
fuzzy-resolved name, even when several accounts still qualify.
Remaining ambiguity is never reported as a failure. -/
theorem claim3_amended_duplicate_number_selection (row : Row) (ref : RefData)
    (a0 a1 : Account) (rest : List Account)
    (hne : ref.accounts ≠ []) (hnum : optTruthy row.accountNumber = true)
    (hfilter : ref.accounts.filter
      (fun a => a.acctNumber == some (row.accountNumber.getD "")) = a0 :: a1 :: rest) :
    (optTruthy row.accountName = false → resolveAccount row ref = .ok (some a0)) ∧
    (optTruthy row.accountName = true →
      (∀ b, resolveAccount row ref = .ok (some b) →
        ∃ nm bs, ref.accounts.filter (fun a =>
          (parentQualName a.parentName a.acctName == some nm) || a.acctName == nm) =
            b :: bs) ∧
      resolveAccount row ref ≠ .ok none) := by
  have hcond : (!ref.accounts.isEmpty && optTruthy row.accountNumber) = true := by
    rw [isEmpty_false_of_ne_nil hne, hnum]
    rfl
  constructor
  · intro hnamef
    have hni : ¬ ((!(a1 :: rest).isEmpty && optTruthy row.accountName) = true) := by
      rw [hnamef]
      simp
    unfold resolveAccount
    rw [if_pos hcond]
    dsimp only
    rw [hfilter]
    dsimp only
    rw [if_neg hni]
  · intro hnamet
    have hci : (!(a1 :: rest).isEmpty && optTruthy row.accountName) = true := by
      rw [hnamet]
      rfl
    constructor
    · intro b hb
      unfold resolveAccount at hb
      rw [if_pos hcond] at hb
      dsimp only at hb
      rw [hfilter] at hb
      dsimp only at hb
      rw [if_pos hci] at hb
      split at hb
      · exact absurd hb (by simp)
      · split at hb
        · exact absurd hb (by simp)
        · split at hb
          · exact absurd hb (by simp)
          · rename_i b0 bs hfeq
            have hb0 : b0 = b := by
              have := Except.ok.inj hb
              exact Option.some.inj this
            exact ⟨_, bs, hb0 ▸ hfeq⟩
    · intro hb
      unfold resolveAccount at hb
      rw [if_pos hcond] at hb
      dsimp only at hb
      rw [hfilter] at hb
      dsimp only at hb
      rw [if_pos hci] at hb
      split at hb
      · exact absurd hb (by simp)
      · split at hb
        · exact absurd hb (by simp)
        · split at hb
          · exact absurd hb (by simp)
          · exact absurd hb (by simp)

/-- The duplicated-number row with an Account Name to disambiguate. -/
def rowC3n : Row :=
  { rowC3 with accountName := some "X" }

/-- Witness for C3 amended at concrete inputs: with no Account Name the
first duplicate a1 is returned, and with Account Name X any success is
the first account named by the resolved string. -/
theorem claim3_witness :
    resolveAccount rowC3 refC3 = .ok (some acctC3x) ∧
    ((∀ b, resolveAccount rowC3n refC3 = .ok (some b) →
      ∃ nm bs, refC3.accounts.filter (fun a =>
        (parentQualName a.parentName a.acctName == some nm) || a.acctName == nm) =
          b :: bs) ∧
     resolveAccount rowC3n refC3 ≠ .ok none) :=
  ⟨(claim3_amended_duplicate_number_selection rowC3 refC3 acctC3x acctC3y []
      (by decide) (by decide) (by decide)).1 rfl,
   (claim3_amended_duplicate_number_selection rowC3n refC3 acctC3x acctC3y []
      (by decide) (by decide) (by decide)).2 rfl⟩

/-! ## Claim C6 -/

lemma dedupSubsidiaries_prop (s : Subsidiaries) :
    ¬ ∃ v, (dedupSubsidiaries s).sub = some v ∧ (dedupSubsidiaries s).toSub = some v := by
  rcases s with ⟨sub, toSub⟩
  cases sub with
  | none => cases toSub <;> simp [dedupSubsidiaries]
  | some a =>
    cases toSub with
    | none => simp [dedupSubsidiaries]
    | some b =>
      by_cases hab : a = b
      · simp [dedupSubsidiaries, hab]
      · simp only [dedupSubsidiaries, if_neg hab]
        rintro ⟨v, hv1, hv2⟩
        exact hab ((Option.some.inj hv1).trans (Option.some.inj hv2).symm)

/-- C6: a built JournalEntry never carries equal subsidiary and
toSubsidiary values: when the accumulated values coincide, the
toSubsidiary key is deleted before the entry is assembled. -/
theorem claim6_subsidiaries_never_equal (rows : List Row) (ref : RefData)
    (entry : JournalEntry) (h : build_lines rows ref = .ok entry) :
    ¬ ∃ v, entry.subsidiary = some v ∧ entry.toSubsidiary = some v := by
  unfold build_lines at h
  split at h
  · exact absurd h (by simp)
  · split at h
    · exact absurd h (by simp)
    · split at h
      · exact absurd h (by simp)
      · have he := Except.ok.inj h
        rw [← he]
        exact dedupSubsidiaries_prop _

/-- A single well-formed debit row against one account. -/
def rowC6 : Row :=
  { journalEntryId := some "JE1", transactionDate := none, postingType := "debit",
    accountNumber := some "1", accountName := none, amount := some 5,
    subsidiary := none, customerName := none, customerId := none, currency := none,
    className := none, department := none, location := none, description := none,
    journalDesc := none }

/-- Reference data with the single account 1. -/
def refC6 : RefData :=
  { accounts := [⟨"Cash", some "1", "a1", none, none, []⟩], subsidiaries := [],
    customers := [], currencies := [], classifications := [], departments := [],
    locations := [] }

/-- Witness for C6: a concretely built entry satisfies the invariant. -/
theorem claim6_witness :
    ∃ entry, build_lines [rowC6] refC6 = .ok entry ∧
      ¬ ∃ v, entry.subsidiary = some v ∧ entry.toSubsidiary = some v :=
  ⟨_, rfl, claim6_subsidiaries_never_equal [rowC6] refC6 _ rfl⟩

/-! ## Claim C7 -/

/-- C7: the currency of a built entry is resolved once, from the Currency
value of the last row of the group: a truthy unresolvable symbol on the
last row aborts the run, the symbol of the last row resolves by exact
match, and a falsy Currency on the last row (or absent reference
currencies) leaves the entry currency absent regardless of the other
rows. -/
theorem claim7_currency_from_last_row (rows : List Row) (ref : RefData) (last : Row)
    (hlast : rows.getLast? = some last) :
    (optTruthy last.currency = true → ref.currencies ≠ [] →
      ref.currencies.filter (fun c => c.symbol == last.currency.getD "") = [] →
      ∀ entry, build_lines rows ref ≠ .ok entry) ∧
    (∀ entry, build_lines rows ref = .ok entry →
      (optTruthy last.currency = false → entry.currency = none) ∧
      (ref.currencies = [] → entry.currency = none) ∧
      (∀ c0 cs, optTruthy last.currency = true →
        ref.currencies.filter (fun c => c.symbol == last.currency.getD "") = c0 :: cs →
        entry.currency = some ⟨some c0.symbol, c0.externalId, some c0.internalId⟩)) := by
  constructor
  · intro h1 h2 h3 entry hok
    unfold build_lines at hok
    split at hok
    · exact absurd hok (by simp)
    · split at hok
      · exact absurd hok (by simp)
      · split at hok
        · exact absurd hok (by simp)
        · rename_i currencyRef hrc
          have hcond : (!ref.currencies.isEmpty && optTruthy last.currency) = true := by
            rw [isEmpty_false_of_ne_nil h2, h1]
            rfl
          unfold resolveCurrency at hrc
          rw [hlast] at hrc
          dsimp only at hrc
          rw [if_pos hcond] at hrc
          rw [h3] at hrc
          exact absurd hrc (by simp)
  · intro entry hok
    unfold build_lines at hok
    split at hok
    · exact absurd hok (by simp)
    · split at hok
      · exact absurd hok (by simp)
      · split at hok
        · exact absurd hok (by simp)
        · rename_i currencyRef hrc
          have he := Except.ok.inj hok
          rw [← he]
          unfold resolveCurrency at hrc
          rw [hlast] at hrc
          dsimp only at hrc
          refine ⟨?_, ?_, ?_⟩
          · intro hfalse
            have hcond : (!ref.currencies.isEmpty && optTruthy last.currency) = false := by
              rw [hfalse]
              simp
            rw [hcond] at hrc
            simp only [Bool.false_eq_true, if_false] at hrc
            exact (Except.ok.inj hrc).symm
          · intro hnil
            have hcond : (!ref.currencies.isEmpty && optTruthy last.currency) = false := by
              rw [hnil]
              simp
            rw [hcond] at hrc
            simp only [Bool.false_eq_true, if_false] at hrc
            exact (Except.ok.inj hrc).symm
          · intro c0 cs htruthy hfilter
            have hne : ref.currencies ≠ [] := by
              intro hnil
              rw [hnil] at hfilter
              exact absurd hfilter (by simp)
            have hcond : (!ref.currencies.isEmpty && optTruthy last.currency) = true := by
              rw [isEmpty_false_of_ne_nil hne, htruthy]
              rfl
            rw [if_pos hcond] at hrc
            rw [hfilter] at hrc
            exact (Except.ok.inj hrc).symm

/-- A first row carrying a resolvable Currency. -/
def rowC7a : Row :=
  { journalEntryId := some "JE1", transactionDate := none, postingType := "debit",
    accountNumber := some "1", accountName := none, amount := some 5,
    subsidiary := none, customerName := none, customerId := none,
    currency := some "EUR", className := none, department := none, location := none,
    description := none, journalDesc := none }

/-- A last row with no Currency value. -/
def rowC7b : Row :=
  { rowC7a with currency := none }

/-- Reference data holding the account and the EUR currency. -/
def refC7 : RefData :=
  { accounts := [⟨"Cash", some "1", "a1", none, none, []⟩], subsidiaries := [],
    customers := [], currencies := [⟨"EUR", "cur1", none⟩], classifications := [],
    departments := [], locations := [] }

/-- Witness for C7: although the first row of the group supplies EUR,
the built entry has no currency, because the last row's Currency is
null. -/
theorem claim7_witness :
    ∃ entry, build_lines [rowC7a, rowC7b] refC7 = .ok entry ∧ entry.currency = none :=
  ⟨_, rfl,
    ((claim7_currency_from_last_row [rowC7a, rowC7b] refC7 rowC7b rfl).2 _ rfl).1 rfl⟩

/-! ## Claim C1 -/

/-- A row whose Posting Type is neither credit nor debit, against an
account with an empty subsidiaryList, so that no row subsidiary is
resolved. -/
def rowC1 : Row :=
  { journalEntryId := some "JE1", transactionDate := none, postingType := "Both",
    accountNumber := some "100", accountName := none, amount := some 5,
    subsidiary := none, customerName := none, customerId := none, currency := none,
    className := none, department := none, location := none, description := none,
    journalDesc := none }

/-- Reference data for C1: the account 100 with no subsidiary list. -/
def refC1 : RefData :=
  { accounts := [⟨"Cash", some "100", "a1", none, none, []⟩], subsidiaries := [],
    customers := [], currencies := [], classifications := [], departments := [],
    locations := [] }

/-- C1 failing input: the Posting Type validation of line 298 only runs
when a subsidiary was resolved for the row, and the credit/debit
assignment of lines 456-459 has no else branch; a row with Posting Type
Both and no resolvable subsidiary therefore builds a line with neither
credit nor debit set and raises nothing, against the claimed exactly-one
invariant and the claimed fatal error. -/
theorem claim1_invalid_posting_type_eval :
    (build_lines [rowC1] refC1).map
      (fun e => e.lineList.map (fun l => (l.credit, l.debit))) =
      .ok [((none : Option ℚ), (none : Option ℚ))] := by
  rfl

/-! ## Claim C4 -/

lemma isSome_of_optTruthy {o : Option String} (h : optTruthy o = true) : o.isSome = true := by
  cases o with
  | none => exact absurd h (by simp [optTruthy])
  | some s => rfl

/-- C4 amended: when a Customer Name is supplied and no alias matches it
exactly nor fuzzily at cutoff 0.95, the entity is silently omitted and
no error is raised; when only a Customer ID is supplied and it matches
no active customer, the code crashes with the AttributeError of
None.lower() instead of an error naming the customer. -/
theorem claim4_amended_unmatched_customer (row : Row) (js : Option JournalSub)
    (ref : RefData) :
    (∀ nm0, ref.customers ≠ [] → row.customerName = some nm0 →
      optTruthy row.customerId = false →
      (customerNamesOf ref.customers).contains nm0 = false →
      get_close_matches nm0 (customerNamesOf ref.customers) 2 (mkRat 95 100) = .ok [] →
      resolveCustomer row js ref = .ok none) ∧
    (ref.customers ≠ [] → row.customerName = none → optTruthy row.customerId = true →
      idPathCustomers (row.customerId.getD "") row.customerName js ref.customers = [] →
      resolveCustomer row js ref = .error
        (.attributeError "NoneType object has no attribute lower")) := by
  constructor
  · intro nm0 hne hname hcidf hcontains hgcm
    have hguard : (!ref.customers.isEmpty &&
        (row.customerName.isSome || row.customerId.isSome)) = true := by
      simp [isEmpty_false_of_ne_nil hne, hname]
    have hcidn : ¬ (optTruthy row.customerId = true) := by
      rw [hcidf]
      simp
    unfold resolveCustomer
    dsimp only
    rw [if_pos hguard, if_neg hcidn]
    unfold customerNamePath
    dsimp only
    rw [hname]
    dsimp only
    have hcf : ¬ ((customerNamesOf ref.customers).contains nm0 = true) := by
      rw [hcontains]
      simp
    rw [if_neg hcf, hgcm]
    rfl
  · intro hne hnamenone hcidt hid
    have hguard : (!ref.customers.isEmpty &&
        (row.customerName.isSome || row.customerId.isSome)) = true := by
      simp [isEmpty_false_of_ne_nil hne, isSome_of_optTruthy hcidt]
    unfold resolveCustomer
    dsimp only
    rw [if_pos hguard, if_pos hcidt, hid]
    unfold customerNamePath
    dsimp only
    rw [hnamenone]

/-- A customer record named ab in subsidiary 9. -/
def custC4 : CustomerRec := ⟨some "ab", none, none, none, "c1", none, "9", false⟩

/-- Reference data with account 1 and the single customer ab. -/
def refC4 : RefData :=
  { accounts := [⟨"Cash", some "1", "a1", none, none, []⟩], subsidiaries := [],
    customers := [custC4], currencies := [], classifications := [], departments := [],
    locations := [] }

/-- A row supplying the unmatched Customer Name zz. -/
def rowC4 : Row :=
  { journalEntryId := some "JE1", transactionDate := none, postingType := "debit",
    accountNumber := some "1", accountName := none, amount := some 1,
    subsidiary := none, customerName := some "zz", customerId := none,
    currency := none, className := none, department := none, location := none,
    description := none, journalDesc := none }

/-- A row supplying only the unmatched Customer ID 77. -/
def rowC4b : Row :=
  { rowC4 with customerName := none, customerId := some "77" }

/-- Counterexample to C4: the entry for the row with the unmatched
Customer Name zz is built without error and its line carries no entity:
the customer field is silently omitted although a name was supplied. -/
theorem claim4_silent_omission_counterexample :
    (build_lines [rowC4] refC4).map
      (fun e => e.lineList.map (fun l => l.entity)) = .ok [none] := by
  rfl

/-- Witness for C4 amended at concrete inputs: the unmatched name is
silently dropped, and the unmatched bare ID raises the AttributeError. -/
theorem claim4_witness :
    resolveCustomer rowC4 none refC4 = .ok none ∧
    resolveCustomer rowC4b none refC4 = .error
      (.attributeError "NoneType object has no attribute lower") :=
  ⟨(claim4_amended_unmatched_customer rowC4 none refC4).1 "zz" (by decide) rfl rfl
      (by decide) rfl,
   (claim4_amended_unmatched_customer rowC4b none refC4).2 (by decide) rfl rfl rfl⟩

/-! ## Claim C5 -/

lemma mem_customerAliasAppend {nm : String} {acc : List CustomerRec} {c x : CustomerRec}
    (h : x ∈ customerAliasAppend nm acc c) : x ∈ acc ∨ x = c := by
  unfold customerAliasAppend at h
  dsimp only at h
  split at h <;> split at h <;> split at h <;> split at h <;>
    (try simp only [List.mem_append, List.mem_singleton] at h) <;> tauto

lemma mem_customerDataFor_aux {nm : String} {x : CustomerRec} :
    ∀ (customers acc : List CustomerRec),
    x ∈ customers.foldl (customerAliasAppend nm) acc → x ∈ acc ∨ x ∈ customers := by
  intro customers
  induction customers with
  | nil =>
    intro acc h
    simp only [List.foldl_nil] at h
    exact Or.inl h
  | cons c cs ih =>
    intro acc h
    simp only [List.foldl_cons] at h
    rcases ih (customerAliasAppend nm acc c) h with h' | h'
    · rcases mem_customerAliasAppend h' with h'' | h''
      · exact Or.inl h''
      · exact Or.inr (h'' ▸ List.mem_cons_self c cs)
    · exact Or.inr (List.mem_cons_of_mem c h')

lemma mem_customerDataFor {nm : String} {x : CustomerRec} {customers : List CustomerRec}
    (h : x ∈ customerDataFor nm customers) : x ∈ customers := by
  unfold customerDataFor at h
  rcases mem_customerDataFor_aux customers [] h with h' | h'
  · exact absurd h' (by simp)
  · exact h'

lemma idPathCustomers_mem {cid : String} {cname : Option String} {j : JournalSub}
    {customers : List CustomerRec} {c : CustomerRec}
    (h : c ∈ idPathCustomers cid cname (some j) customers) :
    c ∈ customers ∧ c.subsidiaryInternalId = j.internalId := by
  unfold idPathCustomers at h
  dsimp only at h
  have h2 : c ∈ (customers.filter (fun c =>
      (c.internalId == cid || c.entityId == some cid) && !c.isInactive)).filter
      (fun c => c.subsidiaryInternalId == j.internalId) := by
    split at h
    · exact (List.mem_filter.mp h).1
    · exact h
  have h3 := List.mem_filter.mp h2
  exact ⟨(List.mem_filter.mp h3.1).1, beq_iff_eq.mp h3.2⟩

lemma customerNamePath_scoped {cname cid : Option String} {j : JournalSub} {ref : RefData}
    {ent : RecordRef} (h : customerNamePath cname cid (some j) ref = .ok (some ent)) :
    ∃ c, c ∈ ref.customers ∧ c.subsidiaryInternalId = j.internalId ∧ ent = mkEntityRef c := by
  unfold customerNamePath at h
  dsimp only at h
  split at h
  · exact absurd h (by simp)
  · split at h
    · exact absurd h (by simp)
    · split at h
      · exact absurd h (by simp)
      · rename_i nm hmax
        split at h
        · exact absurd h (by simp)
        · rename_i c0 cs hcd
          split at h
          · rename_i d0 tail hfeq
            have hd0 : d0 ∈ (c0 :: cs).filter
                (fun c => c.subsidiaryInternalId == j.internalId) := by
              rw [hfeq]
              exact List.mem_cons_self _ _
            have hm := List.mem_filter.mp hd0
            have hcc : d0 ∈ ref.customers := by
              have hdc : d0 ∈ customerDataFor nm ref.customers := by
                rw [hcd]
                exact hm.1
              exact mem_customerDataFor hdc
            have hent : mkEntityRef d0 = ent := Option.some.inj (Except.ok.inj h)
            exact ⟨d0, hcc, beq_iff_eq.mp hm.2, hent.symm⟩
          · split at h <;> exact absurd h (by simp)

/-- C5 amended: whenever a journal-level Subsidiary has been resolved to
S, any customer attached to a line (by ID or by name) comes from a
reference customer whose subsidiary internalId is S; when the
subsidiary filter empties the name-path candidates, the raise is the
descriptive error only if the journal subsidiary was resolved by name
(its dict has a name key): a numeric journal subsidiary makes the raise
a bare KeyError naming neither customer nor subsidiary. -/
theorem claim5_amended_subsidiary_scoping (row : Row) (j : JournalSub) (ref : RefData) :
    (∀ ent, resolveCustomer row (some j) ref = .ok (some ent) →
      ∃ c, c ∈ ref.customers ∧ c.subsidiaryInternalId = j.internalId ∧
        ent = mkEntityRef c) ∧
    (∀ nm0 c0 cs, row.customerName = some nm0 →
      (customerNamesOf ref.customers).contains nm0 = true →
      customerDataFor nm0 ref.customers = c0 :: cs →
      (c0 :: cs).filter (fun c => c.subsidiaryInternalId == j.internalId) = [] →
      (j.nameKey = none → customerNamePath row.customerName row.customerId (some j) ref =
        .error (.keyError "name")) ∧
      (∀ jn, j.nameKey = some jn → ∃ msg,
        customerNamePath row.customerName row.customerId (some j) ref =
          .error (.exception msg))) := by
  constructor
  · intro ent h
    unfold resolveCustomer at h
    dsimp only at h
    split at h
    · split at h
      · split at h
        · rename_i c0 rest hid
          have hc0 : c0 ∈ idPathCustomers (row.customerId.getD "") row.customerName
              (some j) ref.customers := by
            rw [hid]
            exact List.mem_cons_self _ _
          have hprops := idPathCustomers_mem hc0
          have hent : mkEntityRef c0 = ent := Option.some.inj (Except.ok.inj h)
          exact ⟨c0, hprops.1, hprops.2, hent.symm⟩
        · exact customerNamePath_scoped h
      · exact customerNamePath_scoped h
    · exact absurd h (by simp)
  · intro nm0 c0 cs hname hcontains hcd hfilter
    unfold customerNamePath
    dsimp only
    rw [hname]
    dsimp only
    rw [if_pos hcontains]
    simp only [maxByValue, List.foldl_nil]
    rw [hcd]
    dsimp only
    rw [hfilter]
    constructor
    · intro hnk
      rw [hnk]
    · intro jn hnk
      rw [hnk]
      exact ⟨_, rfl⟩

/-- The customer ab attached to subsidiary 9. -/
def custC5 : CustomerRec := ⟨some "ab", none, none, none, "c1", none, "9", false⟩

/-- Reference data: account 1, reference subsidiary 9, customer ab in
subsidiary 9. -/
def refC5 : RefData :=
  { accounts := [⟨"Cash", some "1", "a1", none, none, []⟩],
    subsidiaries := [⟨"SubA", "9", none⟩], customers := [custC5], currencies := [],
    classifications := [], departments := [], locations := [] }

/-- A row whose journal Subsidiary is the numeric id 5, with the
customer name ab that resolves but belongs to subsidiary 9. -/
def rowC5 : Row :=
  { journalEntryId := some "JE1", transactionDate := none, postingType := "debit",
    accountNumber := some "1", accountName := none, amount := some 1,
    subsidiary := some "5", customerName := some "ab", customerId := none,
    currency := none, className := none, department := none, location := none,
    description := none, journalDesc := none }

/-- Counterexample to C5: with the journal Subsidiary given numerically
as 5, emptying the subsidiary filter does not produce the descriptive
error: the whole entry aborts with the bare KeyError name, which
identifies neither the customer nor the subsidiary. -/
theorem claim5_keyerror_counterexample :
    build_lines [rowC5] refC5 = .error (.keyError "name") := by
  rfl

/-- The same row with the journal Subsidiary resolved by name SubA. -/
def rowC5n : Row :=
  { rowC5 with subsidiary := some "SubA" }

/-- Witness for C5 amended at concrete inputs: a customer attached under
journal subsidiary 9 really comes from a subsidiary-9 reference
customer, and the empty-filter failure under the numeric journal
subsidiary 5 is the bare KeyError. -/
theorem claim5_witness :
    (∃ c, c ∈ refC5.customers ∧ c.subsidiaryInternalId = ("9" : String) ∧
      mkEntityRef custC5 = mkEntityRef c) ∧
    customerNamePath (some "ab") none (some ⟨"5", none⟩) refC5 =
      .error (.keyError "name") :=
  ⟨(claim5_amended_subsidiary_scoping rowC5 ⟨"9", some "SubA"⟩ refC5).1
      (mkEntityRef custC5) rfl,
   ((claim5_amended_subsidiary_scoping rowC5 ⟨"5", none⟩ refC5).2 "ab" custC5 []
      rfl (by decide) (by decide) (by decide)).1 rfl⟩

end TargetNetsuite
